import Mathlib

/-!
Verification development for the poolbuilder repository.

We give a shallow embedding of the two components the specification's
claims are about:

* `scripts/generate-daily.js` — the seeded PRNG (`hashString`,
  `seededRandom`), daily-set selection (`hashDate`, `pickDailySet`),
  collector-number range matching (`isInRange`) and pool generation
  (`generatePool`, both the structured and the legacy path);
* the submissions worker — `handleSubmit`, `handleGetSubmissions` and the
  per-day key-value store they read and write.

Modelling conventions.  JavaScript 32-bit bitwise arithmetic is embedded
over `Nat` (unsigned bit patterns, values `< 2^32`, wrapped with `% 2^32`
where the source applies `|0`, `>>> 0` or `Math.imul`) and over `Int`
(signed view, wrapped with `toInt32`) where the source observes the sign
(`Math.abs`).  Signed and unsigned views agree modulo `2^32`, and every
wrap point of the source is wrapped here, so the embedding is congruent to
the JS semantics.  `random()` returns the exact dyadic rational `u / 2^32`
for a 32-bit `u`; `Math.floor(random() * arr.length)` is therefore the
natural number `u * arr.length / 2^32` (exact for the array sizes that
occur, far below `2^21`).  A JS array that may hold `undefined` entries is
a `List (Option Card)`, with `none` standing for `undefined`.
`charCodeAt` is modelled by `Char.toNat` (identical on the ASCII strings
involved).
-/

/-- `2^32`, the wraparound modulus of JS 32-bit integer coercions. -/
def two32 : Nat := 4294967296

/-- JS `ToInt32`: wrap an integer into the signed 32-bit range
`[-2^31, 2^31)` (the `|0` coercion). -/
def toInt32 (x : Int) : Int := (x + 2147483648) % 4294967296 - 2147483648

/-- JS `ToUint32`: the unsigned 32-bit bit pattern of an integer
(the `>>> 0` coercion). -/
def toUInt32 (x : Int) : Nat := (x % 4294967296).toNat

/-- One step of the string-folding hash shared by `hashString` and
`hashDate`: `hash = ((hash << 5) - hash) + charCode; hash |= 0`. -/
def hashStep (h : Int) (c : Nat) : Int := toInt32 (toInt32 (h * 32) - h + (c : Int))

/-- `hashString(str)` from generate-daily.js: fold the characters with
`hashStep`, starting from 0, producing a signed 32-bit integer. -/
def hashString (s : String) : Int := s.toList.foldl (fun h c => hashStep h c.toNat) 0

/-- `hashDate(dateStr)` from generate-daily.js: the same character fold as
`hashString`, then `Math.abs`. -/
def hashDate (s : String) : Nat :=
  (s.toList.foldl (fun h c => hashStep h c.toNat) 0).natAbs

/-- One call of the closure returned by `seededRandom(seed)`
(mulberry32).  The state is the unsigned 32-bit bit pattern of the JS
`seed` variable; the result is the new state together with the 32-bit
output word `u`; the JS float output is `u / 2^32`. -/
def mulberry (s : Nat) : Nat × Nat :=
  let s' := (s + 0x6D2B79F5) % two32
  let t1 := (((s' ^^^ (s' >>> 15)) * (1 ||| s')) % two32)
  let t2 := ((t1 + ((t1 ^^^ (t1 >>> 7)) * (61 ||| t1)) % two32) % two32) ^^^ t1
  (s', (t2 ^^^ (t2 >>> 14)) % two32)

/-- The exact rational value of a 32-bit PRNG output word `u`, i.e. the
JS float `u / 2^32` (written with `mkRat`, which is definitionally a
normalised fraction and hence kernel-computable). -/
def outVal (u : Nat) : ℚ := mkRat u two32

/-- The rational value of one PRNG output word: `u / 2^32 ∈ [0,1)`. -/
def randFloat (s : Nat) : ℚ := outVal (mulberry s).2

/-- A seed as accepted by `seededRandom`: a string or an integer. -/
inductive JSeed where
  | str (s : String)
  | num (n : Int)
deriving DecidableEq

/-- The initial PRNG state for a seed: strings are folded with
`hashString` first; either way the state is the unsigned 32-bit pattern
(the closure's `seed |= 0`). -/
def initState : JSeed → Nat
  | .str s => toUInt32 (hashString s)
  | .num n => toUInt32 n

/-- `pickRandom(arr, random)` with output word `u`:
`arr[Math.floor(u/2^32 * arr.length)]`; `none` models the `undefined`
read past the end of an empty array. -/
def pickRandom {α : Type} (arr : List α) (u : Nat) : Option α :=
  arr.get? (u * arr.length / two32)

/-- A set-catalog entry as consumed by `pickDailySet` (`released` is
`none` when the field is absent). -/
structure SetInfo where
  code : String
  name : String
  released : Option String
deriving DecidableEq

/-- JS `<=` on strings: lexicographic comparison of the code-unit
sequences (here code points; identical on the BMP strings involved). -/
def lexLe : List Nat → List Nat → Bool
  | [], _ => true
  | _ :: _, [] => false
  | a :: as, b :: bs => if a < b then true else if b < a then false else lexLe as bs

/-- JS `a <= b` for strings. -/
def jsStrLe (a b : String) : Bool :=
  lexLe (a.toList.map Char.toNat) (b.toList.map Char.toNat)

/-- The filter `s.released && s.released >= '2020-01-01'` (an absent or
empty `released` is falsy; the empty string also fails the comparison). -/
def isRecentSet (s : SetInfo) : Bool :=
  match s.released with
  | none => false
  | some r => jsStrLe "2020-01-01" r

/-- `pickDailySet(sets)` from generate-daily.js, with the UTC date string
(the seed minus its `"daily-"` prefix, which round-trips exactly) made an
explicit parameter: filter to recent sets and index by
`hashDate(dateStr) % recentSets.length`.  `none` models the `undefined`
result when no set qualifies (JS indexes by `NaN`). -/
def pickDailySet (sets : List SetInfo) (dateStr : String) : Option SetInfo :=
  let recentSets := sets.filter isRecentSet
  recentSets.get? (hashDate dateStr % recentSets.length)

/-! ## Range matching and the card/slot data model -/

/-- The longest leading run of decimal digits of a character list. -/
def leadingDigits : List Char → List Char
  | [] => []
  | c :: rest => if c.isDigit then c :: leadingDigits rest else []

/-- Numeric value of a digit list. -/
def digitsVal (cs : List Char) : Nat := cs.foldl (fun a c => a * 10 + (c.toNat - 48)) 0

/-- JS `parseInt(·, 10)` on a character list: skip leading spaces,
optional sign, then the longest digit prefix; `none` models `NaN`. -/
def jsParseIntChars (s : List Char) : Option Int :=
  let cs := s.dropWhile (fun c => c == ' ')
  match cs with
  | '-' :: rest =>
    if leadingDigits rest = [] then none else some (-(digitsVal (leadingDigits rest) : Int))
  | '+' :: rest =>
    if leadingDigits rest = [] then none else some ((digitsVal (leadingDigits rest) : Int))
  | _ =>
    if leadingDigits cs = [] then none else some ((digitsVal (leadingDigits cs) : Int))

/-- JS `parseInt(s, 10)`. -/
def jsParseInt (s : String) : Option Int := jsParseIntChars s.toList

/-- JS `String.prototype.split(sep)` for a one-character separator. -/
def splitOnChar (sep : Char) : List Char → List (List Char)
  | [] => [[]]
  | x :: xs =>
    match splitOnChar sep xs with
    | [] => [[]]
    | part :: parts => if x == sep then [] :: part :: parts else (x :: part) :: parts

/-- `isInRange(cn, rangeStr)` from generate-daily.js: parse the collector
number; a range string containing `-` splits into inclusive bounds
(a `NaN` bound makes the comparison false), otherwise exact equality. -/
def isInRange (cn rangeStr : String) : Bool :=
  match jsParseInt cn with
  | none => false
  | some cnNum =>
    if rangeStr.toList.contains '-' then
      let parts := splitOnChar '-' rangeStr.toList
      match jsParseIntChars (parts.getD 0 []), jsParseIntChars (parts.getD 1 []) with
      | some lo, some hi => decide (lo ≤ cnNum ∧ cnNum ≤ hi)
      | _, _ => false
    else
      match jsParseInt rangeStr with
      | some v => decide (cnNum = v)
      | none => false

/-- A catalog card, restricted to the fields `generatePool` reads. -/
structure Card where
  id : String
  rarity : String
  collector_number : String
deriving DecidableEq

/-- A slot of a structured booster definition.  `count = 0` models a
falsy (absent or zero) `count`; `pool` maps finishes to range lists (only
`Object.values` order is kept). -/
structure Slot where
  rarities : Option (List String)
  count : Nat
  mythicRate : Option ℚ
  pool : Option (List (List String))
deriving DecidableEq

/-- All ranges of a slot's pool, concatenated across finishes. -/
def rangesOfPool (pool : List (List String)) : List String := pool.flatten

/-! ## Structured generation: the shared per-rarity eligibility map -/

/-- The `cardsByRarity` object: an insertion-ordered association list
from rarity name to eligible cards. -/
abbrev RMap := List (String × List Card)

/-- `cardsByRarity[r] || []`: first entry for the key, else the empty
list. -/
def lookupR : RMap → String → List Card
  | [], _ => []
  | (k, v) :: t, r => if k == r then v else lookupR t r

/-- Set (or create) the entry for rarity `r`. -/
def insertR (m : RMap) (r : String) (cs : List Card) : RMap :=
  if m.any (fun p => p.1 == r) then
    m.map (fun p => if p.1 == r then (r, cs) else p)
  else m ++ [(r, cs)]

/-- Cards of rarity `r` whose collector number lies in one of `ranges`. -/
def slotRarityCards (cards : List Card) (ranges : List String) (r : String) : List Card :=
  cards.filter (fun card =>
    card.rarity == r && ranges.any (fun range => isInRange card.collector_number range))

/-- Append `cs` to `acc`, skipping cards whose id is already present. -/
def addUniqueById (acc : List Card) (cs : List Card) : List Card :=
  cs.foldl (fun a c => if a.any (fun c2 => c2.id == c.id) then a else a ++ [c]) acc

/-- The `cardsByRarity` pre-filter of `generatePool`: for every slot with
both a pool and a rarity list, add the slot's range-eligible cards of each
declared rarity to that rarity's (slot-independent) entry, deduplicated
by card id. -/
def buildByRarity (cards : List Card) (slots : List Slot) : RMap :=
  slots.foldl (fun m slot =>
    match slot.pool, slot.rarities with
    | some pool, some rs =>
      let ranges := rangesOfPool pool
      rs.foldl (fun m r =>
        insertR m r (addUniqueById (lookupR m r) (slotRarityCards cards ranges r))) m
    | _, _ => m) []

/-- Whether a card's collector number lies in some range of `slot.pool`. -/
def cardInSlotRanges (slot : Slot) (card : Card) : Bool :=
  match slot.pool with
  | none => false
  | some pool => (rangesOfPool pool).any (fun range => isInRange card.collector_number range)

/-- The `allInPool` filter: cards lying in the ranges of at least one
slot. -/
def allInPool (cards : List Card) (slots : List Slot) : List Card :=
  cards.filter (fun card => slots.any (fun slot => cardInSlotRanges slot card))

/-! ## Structured generation: the draw loop -/

/-- `if (rarityPool.length > 0) card = pickRandom(rarityPool, random)` —
a PRNG value is consumed only when the pool is non-empty. -/
def pickFromPool (rarityPool : List Card) (s : Nat) : Option Card × Nat :=
  if rarityPool.length > 0 then
    let p := mulberry s
    (pickRandom rarityPool p.2, p.1)
  else (none, s)

/-- One slot draw of the structured path of `generatePool`
(generate-daily.js lines 220–239), returning the drawn card (if any) and
the new PRNG state.  Note the two source quirks embedded faithfully: the
rare/mythic gate fires whenever the rarity list *contains* both names,
and its PRNG draw is short-circuited away when no eligible mythic
exists. -/
def drawCard (byR : RMap) (allIn : List Card) (slot : Slot) (s : Nat) : Option Card × Nat :=
  match slot.rarities with
  | some rs =>
    if rs.contains "mythic" && rs.contains "rare" then
      let mythicRate := slot.mythicRate.getD (mkRat 1 8)
      let hasMythics := (lookupR byR "mythic").length > 0
      if hasMythics then
        let p := mulberry s
        let r := if outVal p.2 < mythicRate then "mythic" else "rare"
        pickFromPool (lookupR byR r) p.1
      else
        pickFromPool (lookupR byR "rare") s
    else
      let p := mulberry s
      let rarityPool :=
        match rs.get? (p.2 * rs.length / two32) with
        | some r => lookupR byR r
        | none => []
      pickFromPool rarityPool p.1
  | none =>
    match slot.pool with
    | some pool =>
      let ranges := rangesOfPool pool
      let slotCards := allIn.filter (fun c => ranges.any (fun range => isInRange c.collector_number range))
      pickFromPool slotCards s
    | none => (none, s)

/-- `slot.count` iterated draws for one slot. -/
def drawCount (byR : RMap) (allIn : List Card) (slot : Slot) : Nat → Nat → List (Option Card) × Nat
  | 0, s => ([], s)
  | n+1, s =>
    let p := drawCard byR allIn slot s
    let q := drawCount byR allIn slot n p.2
    (p.1 :: q.1, q.2)

/-- The loop guard `if (!slot.pool || !slot.count) continue`. -/
def slotActive (slot : Slot) : Bool := slot.pool.isSome && slot.count != 0

/-- One pack: iterate the slots in declared order. -/
def drawSlots (byR : RMap) (allIn : List Card) : List Slot → Nat → List (Option Card) × Nat
  | [], s => ([], s)
  | slot :: rest, s =>
    let p := if slotActive slot then drawCount byR allIn slot slot.count s else ([], s)
    let q := drawSlots byR allIn rest p.2
    (p.1 ++ q.1, q.2)

/-- `n` packs of structured draws. -/
def drawPacks (byR : RMap) (allIn : List Card) (slots : List Slot) : Nat → Nat → List (Option Card) × Nat
  | 0, s => ([], s)
  | n+1, s =>
    let p := drawSlots byR allIn slots s
    let q := drawPacks byR allIn slots n p.2
    (p.1 ++ q.1, q.2)

/-- All six packs of per-draw results of the structured path; `none`
marks a draw whose chosen eligible pool was empty. -/
def structuredDraws (cards : List Card) (slots : List Slot) (s : Nat) : List (Option Card) × Nat :=
  drawPacks (buildByRarity cards slots) (allInPool cards slots) slots 6 s

/-! ## Legacy generation -/

/-- `cards.filter(c => c.rarity === r)`. -/
def legacyByRarity (cards : List Card) (r : String) : List Card :=
  cards.filter (fun c => c.rarity == r)

/-- `n` consecutive `pickRandom` draws from a fixed pool (each consumes
one PRNG value, even on an empty pool). -/
def drawsRepeat (pool : List Card) : Nat → Nat → List (Option Card) × Nat
  | 0, s => ([], s)
  | n+1, s =>
    let p := mulberry s
    let q := drawsRepeat pool n p.1
    (pickRandom pool p.2 :: q.1, q.2)

/-- One legacy pack: the rare/mythic slot (one PRNG value for the 12.5%
gate, one for the pick — both always consumed), then 3 uncommons and 10
commons.  Every draw is pushed, so an empty tier contributes an
`undefined` (`none`) entry. -/
def legacyPack (cards : List Card) (s : Nat) : List (Option Card) × Nat :=
  let byM := legacyByRarity cards "mythic"
  let byU := legacyByRarity cards "uncommon"
  let byC := legacyByRarity cards "common"
  let p1 := mulberry s
  let isMythic := decide (outVal p1.2 < mkRat 1 8) && byM.length > 0
  let p2 := mulberry p1.1
  let rareCard := pickRandom (if isMythic then byM else legacyByRarity cards "rare") p2.2
  let pu := drawsRepeat byU 3 p2.1
  let pc := drawsRepeat byC 10 pu.2
  (rareCard :: (pu.1 ++ pc.1), pc.2)

/-- `n` legacy packs. -/
def legacyPacks (cards : List Card) : Nat → Nat → List (Option Card) × Nat
  | 0, s => ([], s)
  | n+1, s =>
    let p := legacyPack cards s
    let q := legacyPacks cards n p.2
    (p.1 ++ q.1, q.2)

/-- `generatePool(cards, boosterFile, seed)` from generate-daily.js.  The
result is the JS array of pushed values: on the structured path only
non-null cards are pushed (all entries `some`), on the legacy path every
`pickRandom` result is pushed (an empty rarity tier yields a `none` =
`undefined` entry). -/
def generatePool (cards : List Card) (boosterFile : Option (List Slot)) (seed : JSeed) :
    List (Option Card) :=
  let s0 := initState seed
  match boosterFile with
  | none => (legacyPacks cards 6 s0).1
  | some slots => ((structuredDraws cards slots s0).1.filterMap id).map some

/-- Total number of draws per pack: `Σ slot.count` over active slots. -/
def sumSlotCounts (slots : List Slot) : Nat :=
  ((slots.filter slotActive).map Slot.count).sum

/-! ## The submissions worker

`handleSubmit` and `handleGetSubmissions` are pure functions of the
request payload, the current key-value state for the day, and the
injected environment values (today's UTC date, the freshly generated id,
the current timestamp).  A `none` body models a JSON parse failure; a
`none` store field models a missing key (defaulted on read).  Writes are
the new `Store` returned alongside the response; every error path returns
the input store unchanged. -/

/-- A stored submission record. -/
structure Submission where
  id : String
  name : String
  fingerprint : String
  submittedAt : String
  cardIds : List String
  basics : List (String × Int)
  colors : List String
deriving DecidableEq

/-- The per-day metadata record. -/
structure Meta where
  count : Nat
  featured : List String
deriving DecidableEq

/-- The read default `{ count: 0, featured: [] }`. -/
def defaultMeta : Meta := ⟨0, []⟩

/-- The two per-day keys `subs:<date>` and `meta:<date>` (`none` =
key absent). -/
structure Store where
  subs : Option (List Submission)
  meta : Option Meta
deriving DecidableEq

/-- The parsed `/submit` request body; each field is `none` when absent. -/
structure SubmitBody where
  date : Option String
  name : Option String
  fingerprint : Option String
  cardIds : Option (List String)
  basics : Option (List (String × Int))
  colors : Option (List String)
deriving DecidableEq

/-- JS truthiness of an optional string: present and non-empty. -/
def truthyStr : Option String → Bool
  | none => false
  | some s => !(s == "")

/-- The JSON body of a `/submit` response (fields absent unless set). -/
structure SubmitResult where
  status : Nat
  id : Option String := none
  submissions : Option (List Submission) := none
  meta : Option Meta := none
  error : Option String := none
deriving DecidableEq

/-- `Object.values(basics).reduce((a, b) => a + b, 0)`. -/
def basicsTotal (basics : List (String × Int)) : Int := (basics.map Prod.snd).sum

/-- JS `String.prototype.trim`: strip leading and trailing whitespace. -/
def jsTrim (cs : List Char) : List Char :=
  ((cs.dropWhile Char.isWhitespace).reverse.dropWhile Char.isWhitespace).reverse

/-- `(name || 'anonymous').slice(0, 20).trim() || 'anonymous'`. -/
def cleanNameOf (name : Option String) : String :=
  let base := if truthyStr name then name.getD "" else "anonymous"
  let t := String.mk (jsTrim (base.toList.take 20))
  if t == "" then "anonymous" else t

/-- `handleSubmit` from the submissions worker: parse, validate the
required fields, fence to today's date, dedup by fingerprint (before the
deck-size check), validate the deck size, then append the new submission
and write both keys. -/
def handleSubmit (bodyJson : Option SubmitBody) (store : Store) (today newId now : String) :
    SubmitResult × Store :=
  match bodyJson with
  | none => ({ status := 400, error := some "invalid json" }, store)
  | some body =>
    if !(truthyStr body.date && truthyStr body.fingerprint && body.cardIds.isSome &&
         body.basics.isSome && body.colors.isSome) then
      ({ status := 400, error := some "missing required fields" }, store)
    else if body.date.getD "" != today then
      ({ status := 400, error := some "submissions only accepted for today" }, store)
    else
      let submissions := store.subs.getD []
      let meta := store.meta.getD defaultMeta
      let fp := body.fingerprint.getD ""
      match submissions.find? (fun s => s.fingerprint == fp) with
      | some existing =>
        ({ status := 409, id := some existing.id, submissions := some submissions,
           meta := some meta }, store)
      | none =>
        let cardIds := body.cardIds.getD []
        let basics := body.basics.getD []
        if (cardIds.length : Int) + basicsTotal basics < 40 then
          ({ status := 400, error := some "deck must have at least 40 cards" }, store)
        else
          let submission : Submission :=
            ⟨newId, cleanNameOf body.name, fp, now, cardIds, basics, body.colors.getD []⟩
          let newSubs := submissions ++ [submission]
          let newMeta : Meta := { meta with count := newSubs.length }
          ({ status := 200, id := some newId, submissions := some newSubs,
             meta := some newMeta }, ⟨some newSubs, some newMeta⟩)

/-- A decimal digit. -/
def isDigitChar (c : Char) : Bool := decide ('0' ≤ c) && decide (c ≤ '9')

/-- The date guard `/^\d{4}-\d{2}-\d{2}$/` (an empty date fails it, so
the separate `!date` check of the source is subsumed). -/
def validDateFormat (s : String) : Bool :=
  match s.toList with
  | [y1, y2, y3, y4, h1, m1, m2, h2, d1, d2] =>
    isDigitChar y1 && isDigitChar y2 && isDigitChar y3 && isDigitChar y4 &&
    h1 == '-' && isDigitChar m1 && isDigitChar m2 && h2 == '-' &&
    isDigitChar d1 && isDigitChar d2
  | _ => false

/-- The JSON body of a `/submissions/:date` response. -/
structure GetResult where
  status : Nat
  submissions : Option (List Submission) := none
  meta : Option Meta := none
  count : Option Nat := none
  error : Option String := none
deriving DecidableEq

/-- `handleGetSubmissions` from the submissions worker: full list for a
fingerprint that has submitted, aggregate count (403) otherwise;
`meta.count || submissions.length` picks the fallback count. -/
def handleGetSubmissions (date : String) (fingerprint : Option String) (store : Store) :
    GetResult :=
  if !(validDateFormat date) then { status := 400, error := some "invalid date" }
  else
    let submissions := store.subs.getD []
    let meta := store.meta.getD defaultMeta
    if truthyStr fingerprint &&
        submissions.any (fun s => s.fingerprint == fingerprint.getD "") then
      { status := 200, submissions := some submissions, meta := some meta }
    else
      { status := 403,
        count := some (if meta.count != 0 then meta.count else submissions.length) }

/-! ## Shared concrete example data (used by witnesses and
counterexamples) -/

/-- A small concrete catalog: four commons, two uncommons, one rare, one
mythic, collector numbers 1–8. -/
def exCards : List Card :=
  [⟨"c1", "common", "1"⟩, ⟨"c2", "common", "2"⟩, ⟨"c3", "common", "3"⟩,
   ⟨"c4", "common", "4"⟩, ⟨"u1", "uncommon", "5"⟩, ⟨"u2", "uncommon", "6"⟩,
   ⟨"r1", "rare", "7"⟩, ⟨"m1", "mythic", "8"⟩]

/-- A structured definition: one rare/mythic card, two uncommons, three
commons per pack, all over the range 1–8. -/
def exSlots : List Slot :=
  [⟨some ["rare", "mythic"], 1, some 0, some [["1-8"]]⟩,
   ⟨some ["uncommon"], 2, none, some [["1-8"]]⟩,
   ⟨some ["common"], 3, none, some [["1-8"]]⟩]

/-- A catalog with no uncommons and no mythics (for the legacy path's
empty-tier behaviour). -/
def exCardsNoU : List Card := [⟨"c1", "common", "1"⟩, ⟨"r1", "rare", "2"⟩]

/-- An example stored submission for the C7 witness. -/
def exSub : Submission := ⟨"id0", "alice", "fpA", "t0", ["x"], [("W", 39)], ["W"]⟩

/-! ## Fillability: when no structured draw is skipped -/

/-- All pools a slot's draw can possibly select are non-empty, so the
slot always yields a card whatever the PRNG says: the precise reading of
"the slot has at least one eligible card" for each of the three slot
kinds (for the rare/mythic gate the rare pool must be non-empty, since
the gate falls back to rare both when no mythic exists and when the roll
misses the mythic rate). -/
def slotFillable (byR : RMap) (allIn : List Card) (slot : Slot) : Bool :=
  match slot.rarities with
  | some rs =>
    if rs.contains "mythic" && rs.contains "rare" then
      decide (lookupR byR "rare" ≠ [])
    else
      decide (rs ≠ []) && rs.all (fun r => decide (lookupR byR r ≠ []))
  | none =>
    match slot.pool with
    | some pool =>
      decide (allIn.filter (fun c =>
        (rangesOfPool pool).any (fun range => isInRange c.collector_number range)) ≠ [])
    | none => false

/-- Provenance of a card in the `cardsByRarity` entry for rarity `r`:
it has rarity `r`, comes from the catalog, and lies in the ranges of
*some* slot that declares `r` — not necessarily the slot being drawn. -/
def rarityPoolOrigin (cards : List Card) (slots : List Slot) (r : String) (c : Card) : Prop :=
  c.rarity = r ∧ c ∈ cards ∧
    ∃ slot' ∈ slots, ∃ pool' rs', slot'.pool = some pool' ∧ slot'.rarities = some rs' ∧
      r ∈ rs' ∧
      (rangesOfPool pool').any (fun range => isInRange c.collector_number range) = true

/-- Modelled from claim C4's words for a slot with the rare/mythic
pairing: *each draw consumes one PRNG value for the rarity decision*;
if a mythic exists in the eligible pool and that value is below the
slot's mythic rate, sample uniformly from the mythics, otherwise
uniformly from the rares. -/
def drawClaimRM (byR : RMap) (slot : Slot) (s : Nat) : Option Card × Nat :=
  let p := mulberry s
  let mythicRate := slot.mythicRate.getD (mkRat 1 8)
  let hasMythics := (lookupR byR "mythic").length > 0
  let r := if hasMythics ∧ outVal p.2 < mythicRate then "mythic" else "rare"
  pickFromPool (lookupR byR r) p.1

/-- Modelled from claim C4's words for a slot declaring multiple
rarities beyond the rare/mythic pairing: draw one PRNG value to pick one
rarity uniformly from the declared list, then sample uniformly from that
rarity's eligible pool. -/
def drawClaimUniform (byR : RMap) (rs : List String) (s : Nat) : Option Card × Nat :=
  let p := mulberry s
  let rarityPool :=
    match rs.get? (p.2 * rs.length / two32) with
    | some r => lookupR byR r
    | none => []
  pickFromPool rarityPool p.1

-- Basic bounds for the PRNG.

theorem mulberry_state_lt (s : Nat) : (mulberry s).1 < two32 := by
  simp only [mulberry]
  exact Nat.mod_lt _ (by norm_num [two32])

theorem mulberry_out_lt (s : Nat) : (mulberry s).2 < two32 := by
  simp only [mulberry]
  exact Nat.mod_lt _ (by norm_num [two32])

theorem outVal_eq_div (u : Nat) : outVal u = (u : ℚ) / (two32 : ℚ) := by
  rw [outVal, Rat.mkRat_eq_divInt, Rat.divInt_eq_div]
  push_cast
  rfl

theorem randFloat_nonneg (s : Nat) : 0 ≤ randFloat s := by
  rw [randFloat, outVal_eq_div]
  positivity

theorem randFloat_lt_one (s : Nat) : randFloat s < 1 := by
  rw [randFloat, outVal_eq_div]
  rw [div_lt_one (by norm_num [two32])]
  exact_mod_cast mulberry_out_lt s

/-! ## C1 -/

/-- **C1**: pool generation is deterministic — for a fixed seed (string
or integer), catalog and booster definition, two calls of `generatePool`
yield identical ordered output (the embedding is a pure function of
those three inputs, mirroring that `seededRandom` closes over state
derived only from the seed), and every PRNG output `u / 2^32` is a
float in `[0, 1)`. -/
theorem generatePool_deterministic_and_prng_in_unit :
    (∀ (C : List Card) (defn : Option (List Slot)) (S : JSeed),
      generatePool C defn S = generatePool C defn S) ∧
    ∀ s : Nat, 0 ≤ randFloat s ∧ randFloat s < 1 :=
  ⟨fun _ _ _ => rfl, fun s => ⟨randFloat_nonneg s, randFloat_lt_one s⟩⟩

/-! ## C9 -/

/-- **C9**: `pickDailySet` filters the catalog to sets released on or
after 2020-01-01, folds the date string with the same 32-bit signed fold
as the PRNG seed hash (`hashDate s = |hashString s|`), indexes the
filtered list by `hash mod length`, and — being a pure function of the
date string and catalog — succeeds whenever a qualifying set exists. -/
theorem pickDailySet_spec :
    (∀ d : String, hashDate d = (hashString d).natAbs) ∧
    (∀ (sets : List SetInfo) (d : String),
      pickDailySet sets d =
        (sets.filter isRecentSet).get?
          (hashDate d % (sets.filter isRecentSet).length)) ∧
    (∀ (sets : List SetInfo) (d : String),
      sets.filter isRecentSet ≠ [] → (pickDailySet sets d).isSome = true) := by
  refine ⟨fun d => rfl, fun sets d => rfl, fun sets d h => ?_⟩
  unfold pickDailySet
  have hlen : 0 < (sets.filter isRecentSet).length := List.length_pos.mpr h
  have hidx : hashDate d % (sets.filter isRecentSet).length <
      (sets.filter isRecentSet).length := Nat.mod_lt _ hlen
  rw [List.get?_eq_getElem?, List.getElem?_eq_getElem hidx]
  rfl

/-- Witness for C9 at a concrete catalog and date. -/
theorem pickDailySet_spec_witness :
    ([(⟨"abc", "Set A", some "2023-05-01"⟩ : SetInfo)].filter isRecentSet ≠ [] ∧
     (pickDailySet [⟨"abc", "Set A", some "2023-05-01"⟩] "2024-01-01").isSome = true) :=
  ⟨by decide,
   pickDailySet_spec.2.2 [⟨"abc", "Set A", some "2023-05-01"⟩] "2024-01-01" (by decide)⟩

/-! ## C10 -/

/-- **C10**: submit is atomic on error — whenever `handleSubmit` returns
a non-200 response (invalid JSON, missing fields, wrong date, duplicate
fingerprint, undersized deck), the returned store is exactly the input
store; the two key writes happen only on the success path. -/
theorem handleSubmit_no_write_on_error (bodyJson : Option SubmitBody) (store : Store)
    (today newId now : String)
    (h : (handleSubmit bodyJson store today newId now).1.status ≠ 200) :
    (handleSubmit bodyJson store today newId now).2 = store := by
  revert h
  unfold handleSubmit
  rcases bodyJson with _ | body
  · exact fun _ => rfl
  · dsimp only
    split
    · exact fun _ => rfl
    · split
      · exact fun _ => rfl
      · split
        · exact fun _ => rfl
        · split
          · exact fun _ => rfl
          · exact fun h => absurd rfl h

/-- Witness for C10: an invalid-JSON call is a 400 and leaves a concrete
store untouched. -/
theorem handleSubmit_no_write_on_error_witness :
    (handleSubmit none ⟨some [], some ⟨3, ["x"]⟩⟩ "2024-01-01" "id1" "t1").1.status ≠ 200 ∧
    (handleSubmit none ⟨some [], some ⟨3, ["x"]⟩⟩ "2024-01-01" "id1" "t1").2 =
      ⟨some [], some ⟨3, ["x"]⟩⟩ :=
  ⟨by decide,
   handleSubmit_no_write_on_error none ⟨some [], some ⟨3, ["x"]⟩⟩ "2024-01-01" "id1" "t1"
     (by decide)⟩

/-! ## C7 -/

/-- **C7**: unlock gating — for a well-formed date, a (non-empty)
fingerprint with an existing submission for that date gets the full
submissions list and metadata with status 200; with no fingerprint, or a
fingerprint that has not submitted, only the aggregate count is returned
with status 403.  (Fingerprints stored through `handleSubmit` are always
non-empty, since falsy fingerprints are rejected up front.) -/
theorem handleGetSubmissions_unlock_gating (date : String) (fp : String) (store : Store)
    (hdate : validDateFormat date = true) (hfp : fp ≠ "") :
    ((store.subs.getD []).any (fun s => s.fingerprint == fp) = true →
      handleGetSubmissions date (some fp) store =
        { status := 200, submissions := some (store.subs.getD []),
          meta := some (store.meta.getD defaultMeta) }) ∧
    handleGetSubmissions date none store =
      { status := 403,
        count := some (if (store.meta.getD defaultMeta).count != 0
          then (store.meta.getD defaultMeta).count else (store.subs.getD []).length) } ∧
    ((store.subs.getD []).any (fun s => s.fingerprint == fp) = false →
      handleGetSubmissions date (some fp) store =
        { status := 403,
          count := some (if (store.meta.getD defaultMeta).count != 0
            then (store.meta.getD defaultMeta).count else (store.subs.getD []).length) }) := by
  have hfpb : (fp == "") = false := by
    simpa using hfp
  refine ⟨fun hany => ?_, ?_, fun hnone => ?_⟩
  · simp [handleGetSubmissions, hdate, truthyStr, hfpb, hany]
  · simp [handleGetSubmissions, hdate, truthyStr]
  · simp [handleGetSubmissions, hdate, truthyStr, hfpb, hnone]

/-- Witness for C7 at a concrete store: the submitted fingerprint
unlocks the list; an unknown fingerprint gets the 403 count. -/
theorem handleGetSubmissions_unlock_gating_witness :
    handleGetSubmissions "2024-01-01" (some "fpA") ⟨some [exSub], some ⟨1, []⟩⟩ =
      { status := 200, submissions := some [exSub], meta := some ⟨1, []⟩ } ∧
    handleGetSubmissions "2024-01-01" (some "fpB") ⟨some [exSub], some ⟨1, []⟩⟩ =
      { status := 403, count := some 1 } :=
  ⟨(handleGetSubmissions_unlock_gating "2024-01-01" "fpA" ⟨some [exSub], some ⟨1, []⟩⟩
      (by decide) (by decide)).1 (by decide),
   (handleGetSubmissions_unlock_gating "2024-01-01" "fpB" ⟨some [exSub], some ⟨1, []⟩⟩
      (by decide) (by decide)).2.2 (by decide)⟩

/-! ## C8 -/

/-- **C8**: minimum deck size boundary — for an otherwise-valid,
non-duplicate submission for today, a total of
`cardIds.length + Σ basics = 39` is rejected with 400 (and nothing is
written), while a total of `40` is accepted with 200. -/
theorem handleSubmit_min_deck_size (body : SubmitBody) (store : Store)
    (today newId now fp : String) (ids : List String) (bs : List (String × Int))
    (htoday : today ≠ "") (hdate : body.date = some today)
    (hfp : body.fingerprint = some fp) (hfpne : fp ≠ "")
    (hids : body.cardIds = some ids) (hbs : body.basics = some bs)
    (hcol : body.colors.isSome = true)
    (hnodup : (store.subs.getD []).find? (fun s => s.fingerprint == fp) = none) :
    ((ids.length : Int) + basicsTotal bs = 39 →
      (handleSubmit (some body) store today newId now).1.status = 400 ∧
      (handleSubmit (some body) store today newId now).2 = store) ∧
    ((ids.length : Int) + basicsTotal bs = 40 →
      (handleSubmit (some body) store today newId now).1.status = 200) := by
  constructor
  · intro h39
    have hlt : ((ids.length : Int) + basicsTotal bs < 40) := by omega
    constructor <;>
      simp [handleSubmit, truthyStr, htoday, hfpne, hdate, hfp, hids, hbs, hcol, hnodup, hlt]
  · intro h40
    have hlt : ¬ ((ids.length : Int) + basicsTotal bs < 40) := by omega
    simp [handleSubmit, truthyStr, htoday, hfpne, hdate, hfp, hids, hbs, hcol, hnodup, hlt]

/-- Witness for C8: a 1-card deck with 38 basics (total 39) is rejected,
with 39 basics (total 40) accepted. -/
theorem handleSubmit_min_deck_size_witness :
    (handleSubmit (some ⟨some "2024-01-01", none, some "fpA", some ["x"],
        some [("W", 38)], some []⟩) ⟨none, none⟩ "2024-01-01" "n1" "t1").1.status = 400 ∧
    (handleSubmit (some ⟨some "2024-01-01", none, some "fpA", some ["x"],
        some [("W", 39)], some []⟩) ⟨none, none⟩ "2024-01-01" "n1" "t1").1.status = 200 :=
  ⟨((handleSubmit_min_deck_size _ ⟨none, none⟩ "2024-01-01" "n1" "t1" "fpA" ["x"] [("W", 38)]
      (by decide) rfl rfl (by decide) rfl rfl (by decide) (by decide)).1 (by decide)).1,
   (handleSubmit_min_deck_size _ ⟨none, none⟩ "2024-01-01" "n1" "t1" "fpA" ["x"] [("W", 39)]
      (by decide) rfl rfl (by decide) rfl rfl (by decide) (by decide)).2 (by decide)⟩

/-! ## C2 -/

/-- **C2**: dedup idempotence — after a successful submission for a
fingerprint on a day, any second submission with the same fingerprint on
the same date creates no second record: it returns the original
submission's id together with the current submissions/meta snapshot and
status 409, leaves the store untouched, and does so regardless of the
second payload's deck size (the dedup check precedes size validation —
note the absence of any size hypothesis on `body2`). -/
theorem handleSubmit_dedup_idempotent
    (body1 body2 : SubmitBody) (store : Store)
    (today newId1 now1 newId2 now2 fp : String)
    (ids1 : List String) (bs1 : List (String × Int))
    (htoday : today ≠ "") (hfpne : fp ≠ "")
    (h1date : body1.date = some today) (h1fp : body1.fingerprint = some fp)
    (h1ids : body1.cardIds = some ids1) (h1bs : body1.basics = some bs1)
    (h1col : body1.colors.isSome = true)
    (h1size : ¬ ((ids1.length : Int) + basicsTotal bs1 < 40))
    (hnodup : (store.subs.getD []).find? (fun s => s.fingerprint == fp) = none)
    (h2date : body2.date = some today) (h2fp : body2.fingerprint = some fp)
    (h2ids : body2.cardIds.isSome = true) (h2bs : body2.basics.isSome = true)
    (h2col : body2.colors.isSome = true) :
    (handleSubmit (some body1) store today newId1 now1).1.status = 200 ∧
    ((handleSubmit (some body2) (handleSubmit (some body1) store today newId1 now1).2
        today newId2 now2).1.status = 409 ∧
     (handleSubmit (some body2) (handleSubmit (some body1) store today newId1 now1).2
        today newId2 now2).1.id = some newId1 ∧
     (handleSubmit (some body2) (handleSubmit (some body1) store today newId1 now1).2
        today newId2 now2).2 = (handleSubmit (some body1) store today newId1 now1).2 ∧
     (handleSubmit (some body2) (handleSubmit (some body1) store today newId1 now1).2
        today newId2 now2).1.submissions =
       (handleSubmit (some body1) store today newId1 now1).2.subs ∧
     (handleSubmit (some body2) (handleSubmit (some body1) store today newId1 now1).2
        today newId2 now2).1.meta =
       (handleSubmit (some body1) store today newId1 now1).2.meta) := by
  have hr1 : handleSubmit (some body1) store today newId1 now1 =
      ({ status := 200, id := some newId1,
         submissions := some ((store.subs.getD []) ++
           [⟨newId1, cleanNameOf body1.name, fp, now1, ids1, bs1, body1.colors.getD []⟩]),
         meta := some ⟨(store.subs.getD []).length + 1,
           (store.meta.getD defaultMeta).featured⟩ },
       ⟨some ((store.subs.getD []) ++
           [⟨newId1, cleanNameOf body1.name, fp, now1, ids1, bs1, body1.colors.getD []⟩]),
        some ⟨(store.subs.getD []).length + 1, (store.meta.getD defaultMeta).featured⟩⟩) := by
    simp [handleSubmit, truthyStr, htoday, hfpne, h1date, h1fp, h1ids, h1bs, h1col,
      hnodup, h1size]
  have hfind : ((store.subs.getD []) ++
      [(⟨newId1, cleanNameOf body1.name, fp, now1, ids1, bs1, body1.colors.getD []⟩ :
        Submission)]).find? (fun s => s.fingerprint == fp) =
      some ⟨newId1, cleanNameOf body1.name, fp, now1, ids1, bs1, body1.colors.getD []⟩ := by
    rw [List.find?_append, hnodup]
    simp [List.find?]
  rw [hr1]
  refine ⟨rfl, ?_⟩
  simp [handleSubmit, truthyStr, htoday, hfpne, h2date, h2fp, h2ids, h2bs, h2col, hfind]

/-- Witness for C2 at concrete inputs: the second call repeats the
fingerprint with an *undersized* payload (0 cards) and still receives
the 409 snapshot with the first call's id. -/
theorem handleSubmit_dedup_idempotent_witness :
    (handleSubmit (some ⟨some "2024-01-01", some "alice", some "fpA", some ["x"],
        some [("W", 39)], some ["W"]⟩) ⟨none, none⟩ "2024-01-01" "n1" "t1").1.status = 200 ∧
    ((handleSubmit (some ⟨some "2024-01-01", none, some "fpA", some [], some [], some []⟩)
        (handleSubmit (some ⟨some "2024-01-01", some "alice", some "fpA", some ["x"],
          some [("W", 39)], some ["W"]⟩) ⟨none, none⟩ "2024-01-01" "n1" "t1").2
        "2024-01-01" "n2" "t2").1.status = 409 ∧
     (handleSubmit (some ⟨some "2024-01-01", none, some "fpA", some [], some [], some []⟩)
        (handleSubmit (some ⟨some "2024-01-01", some "alice", some "fpA", some ["x"],
          some [("W", 39)], some ["W"]⟩) ⟨none, none⟩ "2024-01-01" "n1" "t1").2
        "2024-01-01" "n2" "t2").1.id = some "n1" ∧
     (handleSubmit (some ⟨some "2024-01-01", none, some "fpA", some [], some [], some []⟩)
        (handleSubmit (some ⟨some "2024-01-01", some "alice", some "fpA", some ["x"],
          some [("W", 39)], some ["W"]⟩) ⟨none, none⟩ "2024-01-01" "n1" "t1").2
        "2024-01-01" "n2" "t2").2 =
       (handleSubmit (some ⟨some "2024-01-01", some "alice", some "fpA", some ["x"],
          some [("W", 39)], some ["W"]⟩) ⟨none, none⟩ "2024-01-01" "n1" "t1").2 ∧
     (handleSubmit (some ⟨some "2024-01-01", none, some "fpA", some [], some [], some []⟩)
        (handleSubmit (some ⟨some "2024-01-01", some "alice", some "fpA", some ["x"],
          some [("W", 39)], some ["W"]⟩) ⟨none, none⟩ "2024-01-01" "n1" "t1").2
        "2024-01-01" "n2" "t2").1.submissions =
       (handleSubmit (some ⟨some "2024-01-01", some "alice", some "fpA", some ["x"],
          some [("W", 39)], some ["W"]⟩) ⟨none, none⟩ "2024-01-01" "n1" "t1").2.subs ∧
     (handleSubmit (some ⟨some "2024-01-01", none, some "fpA", some [], some [], some []⟩)
        (handleSubmit (some ⟨some "2024-01-01", some "alice", some "fpA", some ["x"],
          some [("W", 39)], some ["W"]⟩) ⟨none, none⟩ "2024-01-01" "n1" "t1").2
        "2024-01-01" "n2" "t2").1.meta =
       (handleSubmit (some ⟨some "2024-01-01", some "alice", some "fpA", some ["x"],
          some [("W", 39)], some ["W"]⟩) ⟨none, none⟩ "2024-01-01" "n1" "t1").2.meta) :=
  handleSubmit_dedup_idempotent
    ⟨some "2024-01-01", some "alice", some "fpA", some ["x"], some [("W", 39)], some ["W"]⟩
    ⟨some "2024-01-01", none, some "fpA", some [], some [], some []⟩
    ⟨none, none⟩ "2024-01-01" "n1" "t1" "n2" "t2" "fpA" ["x"] [("W", 39)]
    (by decide) (by decide) rfl rfl rfl rfl (by decide) (by decide) (by decide)
    rfl rfl (by decide) (by decide) (by decide)

/-! ## Length bookkeeping for the draw loops -/

theorem pickIdx_lt {u n : Nat} (hu : u < two32) (hn : 0 < n) : u * n / two32 < n := by
  rw [Nat.div_lt_iff_lt_mul (by norm_num [two32] : 0 < two32)]
  calc u * n < two32 * n := Nat.mul_lt_mul_of_pos_right hu hn
    _ = n * two32 := Nat.mul_comm _ _

theorem pickRandom_isSome {α : Type} {arr : List α} {u : Nat}
    (hu : u < two32) (harr : arr ≠ []) : (pickRandom arr u).isSome = true := by
  unfold pickRandom
  have hidx : u * arr.length / two32 < arr.length :=
    pickIdx_lt hu (List.length_pos.mpr harr)
  rw [List.get?_eq_getElem?, List.getElem?_eq_getElem hidx]
  rfl

theorem pickFromPool_fst_isSome {pool : List Card} {s : Nat} (h : pool ≠ []) :
    (pickFromPool pool s).1.isSome = true := by
  unfold pickFromPool
  rw [if_pos (by simpa [List.length_pos] using h)]
  exact pickRandom_isSome (mulberry_out_lt s) h

theorem length_drawCount (byR : RMap) (allIn : List Card) (slot : Slot) :
    ∀ (n s : Nat), (drawCount byR allIn slot n s).1.length = n := by
  intro n
  induction n with
  | zero => intro s; rfl
  | succ n ih => intro s; simp [drawCount, ih]

theorem sumSlotCounts_cons (slot : Slot) (rest : List Slot) :
    sumSlotCounts (slot :: rest) =
      (if slotActive slot then slot.count else 0) + sumSlotCounts rest := by
  simp only [sumSlotCounts, List.filter_cons]
  split <;> simp

theorem length_drawSlots (byR : RMap) (allIn : List Card) :
    ∀ (slots : List Slot) (s : Nat),
      (drawSlots byR allIn slots s).1.length = sumSlotCounts slots := by
  intro slots
  induction slots with
  | nil => intro s; rfl
  | cons slot rest ih =>
    intro s
    rw [sumSlotCounts_cons]
    by_cases h : slotActive slot = true
    · simp [drawSlots, h, length_drawCount, ih]
    · simp [drawSlots, h, ih]

theorem length_drawPacks (byR : RMap) (allIn : List Card) (slots : List Slot) :
    ∀ (n s : Nat), (drawPacks byR allIn slots n s).1.length = n * sumSlotCounts slots := by
  intro n
  induction n with
  | zero => intro s; simp [drawPacks]
  | succ n ih => intro s; simp [drawPacks, length_drawSlots, ih, Nat.succ_mul, Nat.add_comm]

theorem length_filterMap_id_add_countP {α : Type} (l : List (Option α)) :
    (l.filterMap id).length + l.countP (fun o => o.isNone) = l.length := by
  induction l with
  | nil => rfl
  | cons o rest ih =>
    cases o with
    | none =>
      have h1 : List.filterMap id (none :: rest) = List.filterMap id rest := by simp
      have h2 : List.countP (fun o => o.isNone) (none :: rest)
          = List.countP (fun o => o.isNone) rest + 1 := by simp [List.countP_cons]
      rw [h1, h2, List.length_cons]
      omega
    | some a =>
      have h1 : List.filterMap id (some a :: rest) = a :: List.filterMap id rest := by simp
      have h2 : List.countP (fun o => o.isNone) (some a :: rest)
          = List.countP (fun o => o.isNone) rest := by simp [List.countP_cons]
      rw [h1, h2, List.length_cons, List.length_cons]
      omega

theorem drawCard_fst_isSome {byR : RMap} {allIn : List Card} {slot : Slot}
    (h : slotFillable byR allIn slot = true) (s : Nat) :
    (drawCard byR allIn slot s).1.isSome = true := by
  obtain ⟨rarities, count, mythicRate, pool⟩ := slot
  cases rarities with
  | some rs =>
    unfold slotFillable at h
    unfold drawCard
    dsimp only at h ⊢
    by_cases hrm : (rs.contains "mythic" && rs.contains "rare") = true
    · rw [if_pos hrm]
      rw [if_pos hrm] at h
      have hrare : lookupR byR "rare" ≠ [] := of_decide_eq_true h
      by_cases hm : (lookupR byR "mythic").length > 0
      · rw [if_pos hm]
        by_cases hrate : outVal (mulberry s).2 < mythicRate.getD (mkRat 1 8)
        · rw [if_pos hrate]
          exact pickFromPool_fst_isSome (by simpa [List.length_pos] using hm)
        · rw [if_neg hrate]
          exact pickFromPool_fst_isSome hrare
      · rw [if_neg hm]
        exact pickFromPool_fst_isSome hrare
    · rw [if_neg hrm]
      rw [if_neg hrm] at h
      rw [Bool.and_eq_true] at h
      have hne : rs ≠ [] := of_decide_eq_true h.1
      have hall : ∀ r ∈ rs, lookupR byR r ≠ [] := by
        intro r hr
        exact of_decide_eq_true (List.all_eq_true.mp h.2 r hr)
      have hidx : (mulberry s).2 * rs.length / two32 < rs.length :=
        pickIdx_lt (mulberry_out_lt s) (List.length_pos.mpr hne)
      rw [List.get?_eq_getElem?, List.getElem?_eq_getElem hidx]
      exact pickFromPool_fst_isSome (hall _ (List.getElem_mem hidx))
  | none =>
    cases pool with
    | some ranges =>
      unfold slotFillable at h
      unfold drawCard
      dsimp only at h ⊢
      exact pickFromPool_fst_isSome (of_decide_eq_true h)
    | none =>
      unfold slotFillable at h
      exact absurd h (by simp)

theorem mem_drawCount_isSome {byR : RMap} {allIn : List Card} {slot : Slot}
    (h : slotFillable byR allIn slot = true) :
    ∀ (n s : Nat) (o : Option Card), o ∈ (drawCount byR allIn slot n s).1 →
      o.isSome = true := by
  intro n
  induction n with
  | zero => intro s o ho; simp [drawCount] at ho
  | succ n ih =>
    intro s o ho
    simp only [drawCount, List.mem_cons] at ho
    rcases ho with ho | ho
    · subst ho; exact drawCard_fst_isSome h s
    · exact ih _ _ ho

theorem mem_drawSlots_isSome {byR : RMap} {allIn : List Card} {slots : List Slot}
    (h : ∀ slot ∈ slots, slotActive slot = true → slotFillable byR allIn slot = true) :
    ∀ (s : Nat) (o : Option Card), o ∈ (drawSlots byR allIn slots s).1 →
      o.isSome = true := by
  induction slots with
  | nil => intro s o ho; simp [drawSlots] at ho
  | cons slot rest ih =>
    intro s o ho
    simp only [drawSlots, List.mem_append] at ho
    rcases ho with ho | ho
    · by_cases ha : slotActive slot = true
      · rw [if_pos ha] at ho
        exact mem_drawCount_isSome (h slot (List.mem_cons_self _ _) ha) _ _ _ ho
      · rw [if_neg ha] at ho; simp at ho
    · exact ih (fun sl hsl hact => h sl (List.mem_cons_of_mem _ hsl) hact) _ _ ho

theorem mem_drawPacks_isSome {byR : RMap} {allIn : List Card} {slots : List Slot}
    (h : ∀ slot ∈ slots, slotActive slot = true → slotFillable byR allIn slot = true) :
    ∀ (n s : Nat) (o : Option Card), o ∈ (drawPacks byR allIn slots n s).1 →
      o.isSome = true := by
  intro n
  induction n with
  | zero => intro s o ho; simp [drawPacks] at ho
  | succ n ih =>
    intro s o ho
    simp only [drawPacks, List.mem_append] at ho
    rcases ho with ho | ho
    · exact mem_drawSlots_isSome h _ _ ho
    · exact ih _ _ ho

/-! ## Legacy lengths -/

theorem length_drawsRepeat (pool : List Card) :
    ∀ (n s : Nat), (drawsRepeat pool n s).1.length = n := by
  intro n
  induction n with
  | zero => intro s; rfl
  | succ n ih => intro s; simp [drawsRepeat, ih]

theorem length_legacyPack (cards : List Card) (s : Nat) :
    (legacyPack cards s).1.length = 14 := by
  simp [legacyPack, length_drawsRepeat]

theorem length_legacyPacks (cards : List Card) :
    ∀ (n s : Nat), (legacyPacks cards n s).1.length = n * 14 := by
  intro n
  induction n with
  | zero => intro s; rfl
  | succ n ih =>
    intro s
    simp [legacyPacks, length_legacyPack, ih, Nat.succ_mul, Nat.add_comm]

/-! ## C3 -/

/-- **C3**: pool length invariant.  On the structured path the pool
length plus the number of skipped draws (draws whose chosen eligible
pool was empty) always equals `6 × Σ slot.count` over the active slots,
so the pool shrinks by exactly the skipped-draw count; when every slot
is fillable (each pool its draw can select is non-empty) nothing is
skipped and the length is exactly `6 × Σ slot.count`.  On the legacy
path, for any catalog with at least one card in each rarity tier, the
length is `6 × 14`.  (The booster count is the hard-coded 6 of the
source.) -/
theorem generatePool_length_invariant (cards : List Card) (slots : List Slot) (seed : JSeed) :
    ((generatePool cards (some slots) seed).length
        + (structuredDraws cards slots (initState seed)).1.countP (fun o => o.isNone)
      = 6 * sumSlotCounts slots)
    ∧ ((∀ slot ∈ slots, slotActive slot = true →
          slotFillable (buildByRarity cards slots) (allInPool cards slots) slot = true) →
        (generatePool cards (some slots) seed).length = 6 * sumSlotCounts slots)
    ∧ ∀ (cardsL : List Card) (seedL : JSeed),
        legacyByRarity cardsL "common" ≠ [] → legacyByRarity cardsL "uncommon" ≠ [] →
        legacyByRarity cardsL "rare" ≠ [] → legacyByRarity cardsL "mythic" ≠ [] →
        (generatePool cardsL none seedL).length = 6 * 14 := by
  have hdraws : (structuredDraws cards slots (initState seed)).1.length
      = 6 * sumSlotCounts slots := length_drawPacks _ _ _ 6 _
  have hlen : (generatePool cards (some slots) seed).length
      = ((structuredDraws cards slots (initState seed)).1.filterMap id).length := by
    simp [generatePool]
  have hmain : (generatePool cards (some slots) seed).length
      + (structuredDraws cards slots (initState seed)).1.countP (fun o => o.isNone)
      = 6 * sumSlotCounts slots := by
    rw [hlen, length_filterMap_id_add_countP, hdraws]
  refine ⟨hmain, fun hfill => ?_, fun cardsL seedL _ _ _ _ => ?_⟩
  · have hzero : (structuredDraws cards slots (initState seed)).1.countP
        (fun o => o.isNone) = 0 := by
      rw [List.countP_eq_zero]
      intro o ho
      have hs := mem_drawPacks_isSome hfill 6 _ o ho
      cases o with
      | none => simp at hs
      | some a => simp
    omega
  · simp [generatePool, length_legacyPacks]

/-- Witness for C3: the example catalog and slots are fillable and give
a 36-card structured pool; the same catalog (which has every tier
inhabited) gives an 84-card legacy pool. -/
theorem generatePool_length_invariant_witness :
    (generatePool exCards (some exSlots) (JSeed.str "daily-2024-01-01")).length
      = 6 * sumSlotCounts exSlots ∧
    (generatePool exCards none (JSeed.str "daily-2024-01-01")).length = 6 * 14 :=
  ⟨(generatePool_length_invariant exCards exSlots (JSeed.str "daily-2024-01-01")).2.1
     (by decide),
   (generatePool_length_invariant exCards exSlots (JSeed.str "daily-2024-01-01")).2.2
     exCards (JSeed.str "daily-2024-01-01") (by decide) (by decide) (by decide) (by decide)⟩

/-! ## C6 -/

/-- Counterexample to **C6** as stated: on the legacy path an empty
eligible pool does *not* shrink the pool — `pickRandom` of an empty
array yields `undefined`, which is pushed.  For a catalog with no
uncommons and no mythics the generated pool still has 84 entries and
contains `undefined` (`none`) entries, so the pool does not consist of
card records only. -/
theorem legacy_pool_contains_undefined :
    legacyByRarity exCardsNoU "uncommon" = [] ∧
    (generatePool exCardsNoU none (JSeed.str "seed"))[1]? = some none ∧
    (generatePool exCardsNoU none (JSeed.str "seed")).length = 84 := by
  refine ⟨by decide, by decide, by decide⟩

/-- **C6 (amended)**: on the structured path an empty chosen pool makes
the slot contribute no entry (every entry of the structured pool is a
card record) and the pool shrinks; on the legacy path a draw from an
empty rarity tier pushes an `undefined` entry instead, so the legacy
pool always has `6 × 14` entries.  Generation never aborts in either
case (the generator is total). -/
theorem generatePool_empty_pool_behaviour (cards : List Card) (slots : List Slot)
    (seed : JSeed) :
    (∀ o ∈ generatePool cards (some slots) seed, o.isSome = true) ∧
    ∀ (cardsL : List Card) (seedL : JSeed),
      (generatePool cardsL none seedL).length = 6 * 14 := by
  constructor
  · intro o ho
    simp only [generatePool, List.mem_map] at ho
    obtain ⟨a, _, rfl⟩ := ho
    rfl
  · intro cardsL seedL
    simp [generatePool, length_legacyPacks]

set_option maxRecDepth 8000 in
/-- Witness for C6: the first entry of the concrete structured pool is a
card record. -/
theorem generatePool_empty_pool_behaviour_witness :
    (some (⟨"r1", "rare", "7"⟩ : Card) ∈
      generatePool exCards (some exSlots) (JSeed.str "daily-2024-01-01")) ∧
    (some (⟨"r1", "rare", "7"⟩ : Card) : Option Card).isSome = true :=
  have hm : some (⟨"r1", "rare", "7"⟩ : Card) ∈
      generatePool exCards (some exSlots) (JSeed.str "daily-2024-01-01") :=
    List.getElem?_mem (by decide :
      (generatePool exCards (some exSlots) (JSeed.str "daily-2024-01-01"))[0]?
        = some (some ⟨"r1", "rare", "7"⟩))
  ⟨hm,
   (generatePool_empty_pool_behaviour exCards exSlots (JSeed.str "daily-2024-01-01")).1
     (some ⟨"r1", "rare", "7"⟩) hm⟩

/-! ## C5: where the cards in a rarity pool come from -/

theorem lookupR_map_set_ne (r r' : String) (cs : List Card) (hr : r' ≠ r) :
    ∀ m : RMap,
      lookupR (m.map (fun p => if p.1 == r then (r, cs) else p)) r' = lookupR m r' := by
  have hrr : (r == r') = false := beq_false_of_ne (fun h => hr h.symm)
  intro m
  induction m with
  | nil => rfl
  | cons p t ih =>
    obtain ⟨k, v⟩ := p
    rw [List.map_cons]
    by_cases hk : (k == r) = true
    · have hkr : k = r := eq_of_beq hk
      rw [if_pos hk]
      simp only [lookupR]
      rw [if_neg (by simp [hrr]), if_neg (by simp [hkr, hrr])]
      exact ih
    · rw [if_neg hk]
      simp only [lookupR]
      by_cases hk' : (k == r') = true
      · rw [if_pos hk', if_pos hk']
      · rw [if_neg hk', if_neg hk']
        exact ih

theorem lookupR_append_ne (r r' : String) (cs : List Card) (hr : r' ≠ r) :
    ∀ m : RMap, lookupR (m ++ [(r, cs)]) r' = lookupR m r' := by
  have hrr : (r == r') = false := beq_false_of_ne (fun h => hr h.symm)
  intro m
  induction m with
  | nil =>
    simp only [List.nil_append, lookupR]
    rw [if_neg (by simp [hrr])]
  | cons p t ih =>
    obtain ⟨k, v⟩ := p
    rw [List.cons_append]
    simp only [lookupR]
    by_cases hk : (k == r') = true
    · rw [if_pos hk, if_pos hk]
    · rw [if_neg hk, if_neg hk]
      exact ih

theorem lookupR_insertR_self (r : String) (cs : List Card) :
    ∀ m : RMap, lookupR (insertR m r cs) r = cs := by
  intro m
  unfold insertR
  by_cases hany : (m.any (fun p => p.1 == r)) = true
  · rw [if_pos hany]
    induction m with
    | nil => simp at hany
    | cons p t ih =>
      obtain ⟨k, v⟩ := p
      rw [List.map_cons]
      by_cases hk : (k == r) = true
      · rw [if_pos hk]
        simp only [lookupR]
        rw [if_pos (by simp)]
      · rw [if_neg hk]
        simp only [lookupR]
        rw [if_neg hk]
        simp only [List.any_cons, hk, Bool.false_or] at hany
        exact ih hany
  · rw [if_neg hany]
    induction m with
    | nil =>
      simp only [List.nil_append, lookupR]
      rw [if_pos (by simp)]
    | cons p t ih =>
      obtain ⟨k, v⟩ := p
      simp only [List.any_cons, Bool.or_eq_true, not_or] at hany
      have hk : (k == r) = false := by
        rcases Bool.eq_false_or_eq_true (k == r) with h | h
        · exact absurd h hany.1
        · exact h
      rw [List.cons_append]
      simp only [lookupR]
      rw [if_neg (by simp [hk])]
      exact ih (by simpa using hany.2)

theorem lookupR_insertR_ne (r r' : String) (cs : List Card) (hr : r' ≠ r) (m : RMap) :
    lookupR (insertR m r cs) r' = lookupR m r' := by
  unfold insertR
  by_cases hany : (m.any (fun p => p.1 == r)) = true
  · rw [if_pos hany]
    exact lookupR_map_set_ne r r' cs hr m
  · rw [if_neg hany]
    exact lookupR_append_ne r r' cs hr m

theorem mem_lookupR_insertR {m : RMap} {r r' : String} {cs : List Card} {c : Card}
    (h : c ∈ lookupR (insertR m r cs) r') :
    (r' = r ∧ c ∈ cs) ∨ c ∈ lookupR m r' := by
  by_cases hr : r' = r
  · subst hr
    rw [lookupR_insertR_self] at h
    exact Or.inl ⟨rfl, h⟩
  · rw [lookupR_insertR_ne r r' cs hr] at h
    exact Or.inr h

theorem mem_addUniqueById {c : Card} :
    ∀ (cs acc : List Card), c ∈ addUniqueById acc cs → c ∈ acc ∨ c ∈ cs := by
  intro cs
  induction cs with
  | nil => intro acc h; exact Or.inl h
  | cons c0 rest ih =>
    intro acc h
    unfold addUniqueById at h
    simp only [List.foldl_cons] at h
    have h' := ih _ h
    rcases h' with h' | h'
    · by_cases ha : (acc.any (fun c2 => c2.id == c0.id)) = true
      · rw [if_pos ha] at h'
        exact Or.inl h'
      · rw [if_neg ha] at h'
        rcases List.mem_append.mp h' with h'' | h''
        · exact Or.inl h''
        · simp only [List.mem_singleton] at h''
          exact Or.inr (h'' ▸ List.mem_cons_self c0 rest)
    · exact Or.inr (List.mem_cons_of_mem _ h')

theorem mem_slotRarityCards {cards : List Card} {ranges : List String} {r : String} {c : Card}
    (h : c ∈ slotRarityCards cards ranges r) :
    c ∈ cards ∧ c.rarity = r ∧
      (ranges.any (fun range => isInRange c.collector_number range)) = true := by
  unfold slotRarityCards at h
  rw [List.mem_filter, Bool.and_eq_true] at h
  exact ⟨h.1, by simpa using h.2.1, h.2.2⟩

theorem buildByRarity_inner_good (cards : List Card) (slots : List Slot) (slot : Slot)
    (pool : List (List String)) (rsAll : List String)
    (hslot : slot ∈ slots) (hpool : slot.pool = some pool)
    (hrars : slot.rarities = some rsAll) :
    ∀ (rl : List String) (m : RMap), (∀ x ∈ rl, x ∈ rsAll) →
      (∀ r c, c ∈ lookupR m r → rarityPoolOrigin cards slots r c) →
      ∀ r c,
        c ∈ lookupR (rl.foldl (fun m r =>
          insertR m r (addUniqueById (lookupR m r)
            (slotRarityCards cards (rangesOfPool pool) r))) m) r →
        rarityPoolOrigin cards slots r c := by
  intro rl
  induction rl with
  | nil => intro m _ hm r c hc; exact hm r c hc
  | cons r0 rl' ih =>
    intro m hsub hm r c hc
    simp only [List.foldl_cons] at hc
    refine ih _ (fun x hx => hsub x (List.mem_cons_of_mem _ hx)) ?_ r c hc
    intro r1 c1 hc1
    rcases mem_lookupR_insertR hc1 with ⟨hr1, hmem⟩ | hmem
    · subst hr1
      rcases mem_addUniqueById _ _ hmem with hold | hnew
      · exact hm _ _ hold
      · obtain ⟨hcards, hrar, hrange⟩ := mem_slotRarityCards hnew
        exact ⟨hrar, hcards,
          slot, hslot, pool, rsAll, hpool, hrars, hsub r1 (List.mem_cons_self _ _), hrange⟩
    · exact hm _ _ hmem

theorem mem_buildByRarity {cards : List Card} {slots : List Slot} {r : String} {c : Card}
    (hc : c ∈ lookupR (buildByRarity cards slots) r) :
    rarityPoolOrigin cards slots r c := by
  unfold buildByRarity at hc
  suffices h : ∀ (l : List Slot) (m : RMap), (∀ x ∈ l, x ∈ slots) →
      (∀ r c, c ∈ lookupR m r → rarityPoolOrigin cards slots r c) →
      ∀ r c, c ∈ lookupR (l.foldl (fun m slot =>
        match slot.pool, slot.rarities with
        | some pool, some rs =>
          rs.foldl (fun m r =>
            insertR m r (addUniqueById (lookupR m r)
              (slotRarityCards cards (rangesOfPool pool) r))) m
        | _, _ => m) m) r → rarityPoolOrigin cards slots r c by
    exact h slots [] (fun x hx => hx) (fun r c hc => by simp [lookupR] at hc) r c hc
  intro l
  induction l with
  | nil => intro m _ hm r c hc; exact hm r c hc
  | cons slot l' ih =>
    intro m hsub hm r c hc
    simp only [List.foldl_cons] at hc
    refine ih _ (fun x hx => hsub x (List.mem_cons_of_mem _ hx)) ?_ r c hc
    have hslotmem : slot ∈ slots := hsub slot (List.mem_cons_self _ _)
    obtain ⟨rars, cnt, mrate, pool⟩ := slot
    cases pool with
    | none =>
      cases rars with
      | none => exact hm
      | some rs => exact hm
    | some pl =>
      cases rars with
      | none => exact hm
      | some rs =>
        exact fun r1 c1 hc1 =>
          buildByRarity_inner_good cards slots ⟨some rs, cnt, mrate, some pl⟩ pl rs
            hslotmem rfl rfl rs m (fun x hx => hx) hm r1 c1 hc1

theorem pickFromPool_fst_mem {pool : List Card} {s : Nat} {c : Card}
    (h : (pickFromPool pool s).1 = some c) : c ∈ pool := by
  unfold pickFromPool at h
  by_cases hlen : pool.length > 0
  · rw [if_pos hlen] at h
    exact List.getElem?_mem (by simpa [pickRandom, List.get?_eq_getElem?] using h)
  · rw [if_neg hlen] at h
    simp at h

/-- Counterexample to **C5** as stated: slot 2 declares rarity `rare`
over ranges 11–20 only, yet the draw routine (run on the eligibility
structures `generatePool` builds for this catalog) yields the card with
collector number 5, which lies in no range of slot 2 — eligibility is
pooled per rarity across slots, not slot-local.  In the full pool the
card even fills both slots of every pack (12 copies). -/
theorem slot_eligibility_not_slot_local :
    (drawCard (buildByRarity [⟨"ra", "rare", "5"⟩]
        [⟨some ["rare"], 1, none, some [["1-10"]]⟩,
         ⟨some ["rare"], 1, none, some [["11-20"]]⟩])
      (allInPool [⟨"ra", "rare", "5"⟩]
        [⟨some ["rare"], 1, none, some [["1-10"]]⟩,
         ⟨some ["rare"], 1, none, some [["11-20"]]⟩])
      (⟨some ["rare"], 1, none, some [["11-20"]]⟩ : Slot) 0).1
      = some ⟨"ra", "rare", "5"⟩ ∧
    cardInSlotRanges (⟨some ["rare"], 1, none, some [["11-20"]]⟩ : Slot)
      ⟨"ra", "rare", "5"⟩ = false ∧
    (generatePool [⟨"ra", "rare", "5"⟩]
        (some [⟨some ["rare"], 1, none, some [["1-10"]]⟩,
               ⟨some ["rare"], 1, none, some [["11-20"]]⟩])
        (JSeed.str "s")).length = 12 := by
  refine ⟨by decide, by decide, by decide⟩

/-- **C5 (amended)**: every card drawn for a rarity-constrained slot has
its rarity in that slot's declared rarity set, and its collector number
lies within the declared ranges of at least one slot declaring that
rarity — but not necessarily the slot being drawn: the per-rarity
eligibility pools accumulate ranges across all slots declaring the
rarity (deduplicated by card id), so a matching-rarity card whose number
lies only in a different slot's ranges can be drawn. -/
theorem drawCard_eligibility (cards : List Card) (slots : List Slot) (slot : Slot)
    (rs : List String) (allIn : List Card) (s : Nat) (c : Card)
    (hrs : slot.rarities = some rs)
    (hdraw : (drawCard (buildByRarity cards slots) allIn slot s).1 = some c) :
    c.rarity ∈ rs ∧ rarityPoolOrigin cards slots c.rarity c := by
  obtain ⟨rars, cnt, mrate, pool⟩ := slot
  simp only at hrs
  subst hrs
  unfold drawCard at hdraw
  dsimp only at hdraw
  by_cases hrm : (rs.contains "mythic" && rs.contains "rare") = true
  · rw [if_pos hrm] at hdraw
    have hboth : rs.contains "mythic" = true ∧ rs.contains "rare" = true := by
      rw [Bool.and_eq_true] at hrm
      exact hrm
    have hmm : "mythic" ∈ rs := by simpa using hboth.1
    have hmr : "rare" ∈ rs := by simpa using hboth.2
    by_cases hm : (lookupR (buildByRarity cards slots) "mythic").length > 0
    · rw [if_pos hm] at hdraw
      by_cases hrate : outVal (mulberry s).2 < mrate.getD (mkRat 1 8)
      · rw [if_pos hrate] at hdraw
        have horig := mem_buildByRarity (pickFromPool_fst_mem hdraw)
        rw [horig.1]
        exact ⟨hmm, horig⟩
      · rw [if_neg hrate] at hdraw
        have horig := mem_buildByRarity (pickFromPool_fst_mem hdraw)
        rw [horig.1]
        exact ⟨hmr, horig⟩
    · rw [if_neg hm] at hdraw
      have horig := mem_buildByRarity (pickFromPool_fst_mem hdraw)
      rw [horig.1]
      exact ⟨hmr, horig⟩
  · rw [if_neg hrm] at hdraw
    cases hget : rs.get? ((mulberry s).2 * rs.length / two32) with
    | none =>
      rw [hget] at hdraw
      simp [pickFromPool] at hdraw
    | some r =>
      rw [hget] at hdraw
      have hrmem : r ∈ rs := List.getElem?_mem (by simpa [List.get?_eq_getElem?] using hget)
      have horig := mem_buildByRarity (pickFromPool_fst_mem hdraw)
      rw [horig.1]
      exact ⟨hrmem, horig⟩

/-- Witness for C5 (amended) at the counterexample's concrete slot and
catalog: the drawn card's rarity is declared by the slot and the card
originates from the other slot's ranges. -/
theorem drawCard_eligibility_witness :
    (⟨"ra", "rare", "5"⟩ : Card).rarity ∈ ["rare"] ∧
    rarityPoolOrigin [⟨"ra", "rare", "5"⟩]
      [⟨some ["rare"], 1, none, some [["1-10"]]⟩,
       ⟨some ["rare"], 1, none, some [["11-20"]]⟩]
      (⟨"ra", "rare", "5"⟩ : Card).rarity ⟨"ra", "rare", "5"⟩ :=
  drawCard_eligibility [⟨"ra", "rare", "5"⟩]
    [⟨some ["rare"], 1, none, some [["1-10"]]⟩,
     ⟨some ["rare"], 1, none, some [["11-20"]]⟩]
    (⟨some ["rare"], 1, none, some [["11-20"]]⟩ : Slot) ["rare"]
    (allInPool [⟨"ra", "rare", "5"⟩]
      [⟨some ["rare"], 1, none, some [["1-10"]]⟩,
       ⟨some ["rare"], 1, none, some [["11-20"]]⟩]) 0 ⟨"ra", "rare", "5"⟩
    rfl (by decide)

/-! ## C4: the rare/mythic gate -/

/-- Counterexample to **C4** as stated, in both halves.  First: for a
slot whose rarity set is exactly `{rare, mythic}` but whose eligible
mythic pool is empty, the code consumes *no* PRNG value for the rarity
decision (the `&&` short-circuits), so the draw differs from the
claim's always-consume behaviour (the PRNG state advances once, not
twice).  Second: a slot declaring `[common, rare, mythic]` — a proper
superset of the pairing — still takes the mythic-rate gate (the code
tests `includes`, not exact equality), not the uniform rarity pick the
claim requires, so the drawn card differs. -/
theorem drawCard_rm_gate_counterexample :
    (drawCard [("rare", [⟨"ra", "rare", "1"⟩, ⟨"rb", "rare", "2"⟩])] []
        (⟨some ["rare", "mythic"], 1, none, some [["1-2"]]⟩ : Slot) 0
      ≠ drawClaimRM [("rare", [⟨"ra", "rare", "1"⟩, ⟨"rb", "rare", "2"⟩])]
        (⟨some ["rare", "mythic"], 1, none, some [["1-2"]]⟩ : Slot) 0) ∧
    (drawCard [("common", [⟨"c1", "common", "1"⟩]), ("rare", [⟨"r1", "rare", "2"⟩]),
        ("mythic", [⟨"m1", "mythic", "3"⟩])] []
        (⟨some ["common", "rare", "mythic"], 1, none, some [["1-3"]]⟩ : Slot) 0
      ≠ drawClaimUniform [("common", [⟨"c1", "common", "1"⟩]), ("rare", [⟨"r1", "rare", "2"⟩]),
        ("mythic", [⟨"m1", "mythic", "3"⟩])] ["common", "rare", "mythic"] 0) := by
  refine ⟨by decide, by decide⟩

/-- **C4 (amended)**: the gate fires for every slot whose rarity list
*contains* both `rare` and `mythic` (not only the exact pairing): when
at least one eligible mythic exists, one PRNG value is consumed for the
rarity decision and the card is sampled uniformly from the mythic pool
if the value is below the slot's mythic rate (default 0.125), otherwise
from the rare pool; when no eligible mythic exists, no decision value is
consumed and the rare pool is used directly.  Only slots declaring
rarities *without* the full rare/mythic pairing pick one rarity
uniformly from the declared list. -/
theorem drawCard_rarity_gate (byR : RMap) (allIn : List Card) (slot : Slot)
    (rs : List String) (s : Nat) (hrs : slot.rarities = some rs) :
    ((rs.contains "mythic" && rs.contains "rare") = true →
      drawCard byR allIn slot s =
        if (lookupR byR "mythic").length > 0 then drawClaimRM byR slot s
        else pickFromPool (lookupR byR "rare") s) ∧
    ((rs.contains "mythic" && rs.contains "rare") = false →
      drawCard byR allIn slot s = drawClaimUniform byR rs s) := by
  obtain ⟨rars, cnt, mrate, pool⟩ := slot
  simp only at hrs
  subst hrs
  constructor
  · intro hrm
    unfold drawCard drawClaimRM
    dsimp only
    rw [if_pos hrm]
    by_cases hm : (lookupR byR "mythic").length > 0
    · rw [if_pos hm, if_pos hm]
      have hiff : ((lookupR byR "mythic").length > 0 ∧
            outVal (mulberry s).2 < mrate.getD (mkRat 1 8)) ↔
          outVal (mulberry s).2 < mrate.getD (mkRat 1 8) := and_iff_right hm
      by_cases hrate : outVal (mulberry s).2 < mrate.getD (mkRat 1 8)
      · rw [if_pos hrate, if_pos (hiff.mpr hrate)]
      · rw [if_neg hrate, if_neg (fun h => hrate (hiff.mp h))]
    · rw [if_neg hm, if_neg hm]
  · intro hrm
    unfold drawCard drawClaimUniform
    dsimp only
    rw [if_neg (by rw [hrm]; exact Bool.false_ne_true)]

/-- Witness for C4 (amended): both conclusions instantiated at concrete
slots — a mythic-less gate slot and a single-rarity slot. -/
theorem drawCard_rarity_gate_witness :
    (drawCard [("rare", [⟨"ra", "rare", "1"⟩, ⟨"rb", "rare", "2"⟩])] []
        (⟨some ["rare", "mythic"], 1, none, some [["1-2"]]⟩ : Slot) 0 =
      if (lookupR [("rare", [⟨"ra", "rare", "1"⟩, ⟨"rb", "rare", "2"⟩])] "mythic").length > 0
      then drawClaimRM [("rare", [⟨"ra", "rare", "1"⟩, ⟨"rb", "rare", "2"⟩])]
        (⟨some ["rare", "mythic"], 1, none, some [["1-2"]]⟩ : Slot) 0
      else pickFromPool (lookupR [("rare", [⟨"ra", "rare", "1"⟩, ⟨"rb", "rare", "2"⟩])] "rare") 0) ∧
    (drawCard [("uncommon", [⟨"u1", "uncommon", "1"⟩])] []
        (⟨some ["uncommon"], 1, none, some [["1-9"]]⟩ : Slot) 0 =
      drawClaimUniform [("uncommon", [⟨"u1", "uncommon", "1"⟩])] ["uncommon"] 0) :=
  ⟨(drawCard_rarity_gate [("rare", [⟨"ra", "rare", "1"⟩, ⟨"rb", "rare", "2"⟩])] []
      (⟨some ["rare", "mythic"], 1, none, some [["1-2"]]⟩ : Slot) ["rare", "mythic"] 0 rfl).1
      (by decide),
   (drawCard_rarity_gate [("uncommon", [⟨"u1", "uncommon", "1"⟩])] []
      (⟨some ["uncommon"], 1, none, some [["1-9"]]⟩ : Slot) ["uncommon"] 0 rfl).2
      (by decide)⟩
